import Mathlib

/-!
Shallow embedding of the safe-scan provider daemon (TypeScript sources under
`src/`), covering the parts of the program the verified properties speak
about: the relational store (`src/database/schema.ts` and the `Database`
class), the reconciler's event handlers and main-loop tick (`src/index.ts`,
class `Program`), the request-plane handlers (`src/abstract/AbstractProvider.ts`)
and the provider-scoped route table (`src/pipe.ts`).

Conventions of the embedding:
- TypeScript strings stay `String`; case-insensitive address comparison
  (the `citext` column type and explicit `toLowerCase()` calls) is modelled
  by comparing `String.toLower` images.
- A JSON `details` object is modelled as an association list from field
  name to an opaque serialized value (`Details`); the empty object is `[]`.
- On-chain big integers (block numbers, balances) are `Nat` or `Int`.
- Fallible external calls are modelled with `Option`: `none` stands for the
  call throwing (a transport error or a backend failure); the catch blocks
  of the source then take the corresponding branch of the embedding.
- Async handlers are modelled as sequential state transformers on `Store`;
  the daemon processes events of a tick sequentially (`await` in a loop).
-/

/-- Deployment status of a Resource (enum `DeploymentStatus` of the SDK as
used by the daemon). -/
inductive DeploymentStatus where
  | Deploying
  | Running
  | Failed
  | Closed
deriving DecidableEq, Repr

/-- Status of an on-chain Agreement (enum `Status` of the SDK). -/
inductive AgreementStatus where
  | Active
  | NotActive
deriving DecidableEq, Repr

/-- A JSON object of resource details: field name mapped to an opaque
serialized value. Keys beginning with an underscore are private fields. -/
abbrev Details := List (String × String)

/-- Case normalization used for all address comparisons
(`toLowerCase()` in the source, `citext` columns in the store). Written
over the character list (equivalent to `String.toLower`) so that it
reduces inside the kernel. -/
def lower (s : String) : String := String.mk (s.data.map Char.toLower)

/-- Row of the `protocols` table (`src/database/schema.ts`). -/
structure ProtocolRow where
  id : Nat
  address : String
deriving DecidableEq, Repr

/-- Row of the `providers` table (`src/database/schema.ts`). -/
structure ProviderRow where
  id : Nat
  ownerAddress : String
  isVirtual : Bool
  gatewayProviderId : Option Nat
deriving DecidableEq, Repr

/-- Row of the `resources` table (`src/database/schema.ts`); primary key is
the pair `(id, ptAddressId)`. -/
structure ResourceRow where
  id : Nat
  name : String
  ownerAddress : String
  details : Details
  deploymentStatus : DeploymentStatus
  groupName : String
  offerId : Nat
  isActive : Bool
  providerId : Nat
  ptAddressId : Nat
deriving DecidableEq, Repr

/-- Row of the `detail_files` table: a content-addressed detail blob. -/
structure DetailFileRow where
  cid : String
  content : String
deriving DecidableEq, Repr

/-- The relational store of the daemon (the tables the claims touch). -/
structure Store where
  protocols : List ProtocolRow
  providers : List ProviderRow
  resources : List ResourceRow
  detailFiles : List DetailFileRow
  config : List (String × String)
deriving DecidableEq, Repr

/-- Shape of the rows returned by `Database.resourceQuery`: the resource
columns joined with the provider's owner address and the protocol address. -/
structure ResourceView where
  id : Nat
  name : String
  deploymentStatus : DeploymentStatus
  details : Details
  groupName : String
  isActive : Bool
  ownerAddress : String
  offerId : Nat
  providerId : Nat
  providerAddress : String
  ptAddress : String
deriving DecidableEq, Repr

namespace DB

/-- `Database.getProtocol`: first `protocols` row whose address matches the
argument; the `citext` column makes the match case-insensitive. -/
def getProtocol (s : Store) (address : String) : Option ProtocolRow :=
  s.protocols.find? (fun pt => lower pt.address == lower address)

/-- Builds the joined view of one resource row, as `resourceQuery` does:
an inner join against `providers` on `providerId` (a resource whose
provider row is missing is dropped by the join). -/
def viewOf (s : Store) (r : ResourceRow) (ptAddress : String) : Option ResourceView :=
  (s.providers.find? (fun p => p.id == r.providerId)).map fun p =>
    { id := r.id
      name := r.name
      deploymentStatus := r.deploymentStatus
      details := r.details
      groupName := r.groupName
      isActive := r.isActive
      ownerAddress := r.ownerAddress
      offerId := r.offerId
      providerId := r.providerId
      providerAddress := p.ownerAddress
      ptAddress := ptAddress }

/-- `Database.getResource`: resolve the protocol, then select the resource
row matching the id, the lower-cased owner address and the protocol id. -/
def getResource (s : Store) (id : Nat) (ownerAddress : String) (ptAddress : String) :
    Option ResourceView :=
  match getProtocol s ptAddress with
  | none => none
  | some pt =>
    (s.resources.filterMap (fun r =>
      if r.id == id && lower r.ownerAddress == lower ownerAddress
          && r.ptAddressId == pt.id then
        viewOf s r pt.address
      else none)).head?

/-- `Database.getAllResourcesOfUser`: every resource row whose lower-cased
owner address matches, joined with its protocol and provider rows. -/
def getAllResourcesOfUser (s : Store) (ownerAddress : String) : List ResourceView :=
  s.resources.filterMap (fun r =>
    if lower r.ownerAddress == lower ownerAddress then
      match s.protocols.find? (fun pt => pt.id == r.ptAddressId) with
      | some pt => viewOf s r pt.address
      | none => none
    else none)

/-- `Database.createResource`: a plain insert into the `resources` table. -/
def createResource (s : Store) (r : ResourceRow) : Store :=
  { s with resources := s.resources ++ [r] }

/-- Optional column values accepted by `Database.updateResource`. -/
structure ResourceUpdate where
  name : Option String
  details : Option Details
  deploymentStatus : Option DeploymentStatus
  groupName : Option String
  isActive : Option Bool
deriving Repr

/-- `Database.updateResource`: resolves the protocol (silently dropping the
update when it is unknown) and updates the rows matching `(id, ptAddressId)`
with the provided values. -/
def updateResource (s : Store) (id : Nat) (ptAddress : String) (v : ResourceUpdate) : Store :=
  match getProtocol s ptAddress with
  | none => s
  | some pt =>
    { s with resources := s.resources.map (fun r =>
        if r.id == id && r.ptAddressId == pt.id then
          { r with
            name := v.name.getD r.name
            details := v.details.getD r.details
            deploymentStatus := v.deploymentStatus.getD r.deploymentStatus
            groupName := v.groupName.getD r.groupName
            isActive := v.isActive.getD r.isActive }
        else r) }

/-- `Database.deleteResource`: marks the resource inactive, sets its status
to `Closed` and clears its details to the empty object. -/
def deleteResource (s : Store) (id : Nat) (ptAddress : String) : Store :=
  updateResource s id ptAddress
    ⟨none, some [], some DeploymentStatus.Closed, none, some false⟩

/-- `Database.getConfig`: value of the key in the `config` table. -/
def getConfig (s : Store) (key : String) : Option String :=
  (s.config.find? (fun kv => kv.1 == key)).map (fun kv => kv.2)

/-- `Database.setConfig`: upsert on the unique `key` column. -/
def setConfig (s : Store) (key value : String) : Store :=
  if s.config.any (fun kv => kv.1 == key) then
    { s with config := s.config.map (fun kv => if kv.1 == key then (key, value) else kv) }
  else
    { s with config := s.config ++ [(key, value)] }

/-- `Database.getDetailFiles`: rows whose CID appears in the given list. -/
def getDetailFiles (s : Store) (cids : List String) : List DetailFileRow :=
  s.detailFiles.filter (fun df => cids.any (fun c => c == df.cid))

/-- `Database.insertDetailFile`: computes the CID of the content via
`generateCID` (the `cid` argument) and upserts the row on the unique
`cid` column; returns the CID alongside the new store. -/
def insertDetailFile (cid : String → String) (s : Store) (content : String) :
    Store × String :=
  let c := cid content
  if s.detailFiles.any (fun df => df.cid == c) then
    ({ s with detailFiles := s.detailFiles.map (fun df =>
        if df.cid == c then ⟨c, content⟩ else df) }, c)
  else
    ({ s with detailFiles := s.detailFiles ++ [⟨c, content⟩] }, c)

/-- `Database.syncDetailFiles`: one transaction that deletes every row whose
CID is not among the CIDs of the given contents, and then inserts the new
rows skipping CIDs that are already present (`onConflictDoNothing`). -/
def syncDetailFiles (cid : String → String) (s : Store) (contents : List String) : Store :=
  let values : List DetailFileRow := contents.map (fun c => ⟨cid c, c⟩)
  let kept := s.detailFiles.filter (fun df => values.any (fun v => v.cid == df.cid))
  if values.isEmpty then
    { s with detailFiles := kept }
  else
    { s with detailFiles := values.foldl (fun table v =>
        if table.any (fun df => df.cid == v.cid) then table else table ++ [v]) kept }

/-- `Database.getProvider`: first `providers` row whose owner address
matches case-insensitively (`citext` column). -/
def getProvider (s : Store) (ownerAddress : String) : Option ProviderRow :=
  s.providers.find? (fun p => lower p.ownerAddress == lower ownerAddress)

/-- `Database.saveProvider`: lower-cases the owner address and upserts the
row on the primary key `id`. -/
def saveProvider (s : Store) (id : Nat) (ownerAddress : String) (isVirtual : Bool)
    (gatewayProviderId : Option Nat) : Store :=
  let row : ProviderRow := ⟨id, lower ownerAddress, isVirtual, gatewayProviderId⟩
  if s.providers.any (fun p => p.id == id) then
    { s with providers := s.providers.map (fun p => if p.id == id then row else p) }
  else
    { s with providers := s.providers ++ [row] }

end DB

/-- Agreement snapshot as returned by the indexer (`IndexerAgreement`). -/
structure IndexerAgreement where
  id : Nat
  offerId : Nat
  userAddress : String
  providerAddress : String
  protocolAddress : String
  balance : Int
  status : AgreementStatus
deriving DecidableEq, Repr

/-- Offer record as read from the chain (`Offer` of the SDK). -/
structure Offer where
  id : Nat
  ownerAddr : String
  detailsLink : String
deriving DecidableEq, Repr

/-- Return value of `ServiceBackend.create` and `getDetails`: an optional
name, a deployment status and the remaining detail fields. -/
structure ResourceDetails where
  name : Option String
  status : DeploymentStatus
  rest : Details
deriving DecidableEq, Repr

/-- Provider identity fetched from the registry (relevant fields of the
SDK `Provider` record). -/
structure Actor where
  id : Nat
  ownerAddr : String
deriving DecidableEq, Repr

/-- Virtual Provider entry of a Gateway Provider's in-memory roster. -/
structure VirtualProvider where
  actor : Actor
deriving DecidableEq, Repr

/-- The parts of a running `AbstractProvider` the reconciler consults. -/
structure ProviderRT where
  actor : Actor
  protocolAddress : String
  virtualProviders : List VirtualProvider
deriving DecidableEq, Repr

/-- `VirtualProvidersArray.findByAddress`: lookup in the roster by
case-insensitive owner address. -/
def findByAddress (vprovs : List VirtualProvider) (ownerAddress : String) :
    Option VirtualProvider :=
  vprovs.find? (fun v => lower v.actor.ownerAddr == lower ownerAddress)

/-- External world of one reconciler step: the indexer snapshot, the chain
offers and the behavior of the concrete `ServiceBackend`. A `none` result
of a backend function models the call throwing. -/
structure Env where
  agreements : List IndexerAgreement
  offers : List Offer
  backendCreate : Nat → Option ResourceDetails
  backendGetDetails : Nat → Option ResourceDetails
  randomName : String

/-- Indexer query `getAgreements({id, protocolAddress, status})` followed by
taking the first element, as the event handlers do. -/
def Env.getAgreement (env : Env) (id : Nat) (protocolAddress : String)
    (status : AgreementStatus) : Option IndexerAgreement :=
  (env.agreements.filter (fun a =>
    a.id == id && lower a.protocolAddress == lower protocolAddress
      && a.status == status)).head?

/-- Chain read `protocol.getOffer(id)`; `none` models the read throwing. -/
def Env.getOffer (env : Env) (id : Nat) : Option Offer :=
  env.offers.find? (fun o => o.id == id)

/-- Calls made into the concrete `ServiceBackend` during processing. -/
inductive BackendCall where
  | create (agreementId : Nat)
  | delete (agreementId : Nat)
deriving DecidableEq, Repr

/-- Result of one caught event-handler invocation: the new store, the
backend calls that happened, and whether the handler threw (the main loop
catches the error and continues). -/
structure StepResult where
  store : Store
  calls : List BackendCall
  errored : Bool
deriving DecidableEq, Repr

/-- JavaScript `a || b` on an optional string: an absent or empty name
falls back to the generated random name. -/
def jsOrElse (a : Option String) (b : String) : String :=
  match a with
  | some s => if s == "" then b else s
  | none => b

namespace Program

/-- `Program.createResource` (src/index.ts): calls `ServiceBackend.create`
and inserts the resource row; when `create` throws, inserts a `Failed` row
with empty details instead. Either way the backend `create` call has been
made. When the protocol row is missing both the insert and the catch block
fail, so the error propagates with no row written. (The body also spawns a
status watcher when the returned status is not `Running`; the watcher's
store effects are modelled separately by `watchResourceStatusStep`.) -/
def createResource (env : Env) (agreement : IndexerAgreement) (offer : Offer)
    (ptAddress : String) (providerActor : Actor) (s : Store) : StepResult :=
  match env.backendCreate agreement.id with
  | some details =>
    match DB.getProtocol s ptAddress with
    | some protocol =>
      ⟨DB.createResource s
        { id := agreement.id
          name := jsOrElse details.name env.randomName
          ownerAddress := agreement.userAddress
          details := details.rest
          deploymentStatus := details.status
          groupName := "default"
          offerId := offer.id
          isActive := true
          providerId := providerActor.id
          ptAddressId := protocol.id },
        [BackendCall.create agreement.id], false⟩
    | none => ⟨s, [BackendCall.create agreement.id], true⟩
  | none =>
    match DB.getProtocol s ptAddress with
    | some pt =>
      ⟨DB.createResource s
        { id := agreement.id
          name := ""
          ownerAddress := agreement.userAddress
          details := []
          deploymentStatus := DeploymentStatus.Failed
          groupName := "default"
          offerId := agreement.offerId
          isActive := true
          providerId := providerActor.id
          ptAddressId := pt.id },
        [BackendCall.create agreement.id], false⟩
    | none => ⟨s, [BackendCall.create agreement.id], true⟩

/-- Arguments of `Program.processAgreementCreationEvent`, taken from the
`AgreementCreated` event. -/
structure CreationEventParams where
  agreementId : Nat
  offerId : Nat
  userAddress : String
deriving DecidableEq, Repr

/-- Resolution of the responsible `providerActor` of the creation handler:
the provider itself when the event's provider address matches its owner,
else the matching entry of the virtual-provider roster. -/
def resolveActor (prov : ProviderRT) (providerAddress : String) : Option Actor :=
  if lower providerAddress == lower prov.actor.ownerAddr then
    some prov.actor
  else
    (findByAddress prov.virtualProviders providerAddress).map (fun v => v.actor)

/-- `Program.processAgreementCreationEvent`: skip when a local row already
exists; skip when the indexer no longer lists the agreement as `Active`;
resolve the responsible actor (the provider itself or one of its virtual
providers, throwing when neither matches); then create the resource. -/
def processAgreementCreationEvent (env : Env) (prov : ProviderRT)
    (params : CreationEventParams) (s : Store) : StepResult :=
  match DB.getResource s params.agreementId params.userAddress prov.protocolAddress with
  | some _ => ⟨s, [], false⟩
  | none =>
    match env.getAgreement params.agreementId prov.protocolAddress AgreementStatus.Active with
    | none => ⟨s, [], false⟩
    | some agreement =>
      match env.getOffer agreement.offerId with
      | none => ⟨s, [], true⟩
      | some offer =>
        match resolveActor prov agreement.providerAddress with
        | none => ⟨s, [], true⟩
        | some actor =>
          createResource env agreement offer prov.protocolAddress actor s

/-- `Program.deleteResource`: look the resource up (calling the backend
`delete` only when it exists; a throwing `delete` is logged), and always
mark the row closed through `Database.deleteResource` at the end. -/
def deleteResource (agreementId : Nat) (userAddr : String) (ptAddress : String)
    (s : Store) : Store × List BackendCall :=
  let resource := DB.getResource s agreementId userAddr ptAddress
  let calls := match resource with
    | some _ => [BackendCall.delete agreementId]
    | none => []
  (DB.deleteResource s agreementId ptAddress, calls)

/-- `Program.processAgreementCloseEvent`: fetch the now-`NotActive`
agreement from the indexer (throwing when absent), skip when no local row
exists or the row is already inactive, fetch the offer from chain, then
delete the resource. -/
def processAgreementCloseEvent (env : Env) (prov : ProviderRT)
    (agreementId : Nat) (s : Store) : StepResult :=
  match env.getAgreement agreementId prov.protocolAddress AgreementStatus.NotActive with
  | none => ⟨s, [], true⟩
  | some agreement =>
    match DB.getResource s agreementId agreement.userAddress prov.protocolAddress with
    | none => ⟨s, [], false⟩
    | some resource =>
      if resource.isActive == false then ⟨s, [], false⟩
      else
        match env.getOffer agreement.offerId with
        | none => ⟨s, [], true⟩
        | some _offer =>
          let r := deleteResource agreementId agreement.userAddress prov.protocolAddress s
          ⟨r.1, r.2, false⟩

/-- Arguments captured by one `Program.watchResourceStatus` task. -/
structure WatchParams where
  agreementId : Nat
  ownerAddress : String
  ptAddress : String
deriving DecidableEq, Repr

/-- Encoding of a `ResourceDetails` value back into the JSON object stored
by the watcher (the watcher stores the full returned object). -/
def encodeResourceDetails (rd : ResourceDetails) : Details :=
  (match rd.name with
    | some n => [("name", n)]
    | none => []) ++
  (match rd.status with
    | DeploymentStatus.Deploying => [("status", "Deploying")]
    | DeploymentStatus.Running => [("status", "Running")]
    | DeploymentStatus.Failed => [("status", "Failed")]
    | DeploymentStatus.Closed => [("status", "Closed")]) ++ rd.rest

/-- One poll iteration of the `Program.watchResourceStatus` loop: exit when
the row is gone or inactive; call `getDetails` (a throwing call — including
the preceding chain read — is logged and the loop retries, leaving the
store unchanged); on a `Running` status update the row and exit. -/
def watchResourceStatusStep (env : Env) (p : WatchParams) (s : Store) : Store :=
  match DB.getResource s p.agreementId p.ownerAddress p.ptAddress with
  | none => s
  | some resource =>
    if !resource.isActive then s
    else
      match env.backendGetDetails p.agreementId with
      | none => s
      | some rd =>
        if rd.status == DeploymentStatus.Running then
          DB.updateResource s p.agreementId p.ptAddress
            ⟨none, some (encodeResourceDetails rd), some DeploymentStatus.Running,
              none, none⟩
        else s

end Program

/-- An `AgreementCreated` or `AgreementClosed` event fetched from the
indexer (`blockNumber` plus the used `args` fields). -/
structure AgreementEvent where
  blockNumber : Nat
  id : Nat
  offerId : Nat
  userAddr : String
deriving DecidableEq, Repr

/-- Insertion of an event into a list already sorted ascending by block
number, keeping earlier events first among equal blocks. -/
def insertByBlock (e : AgreementEvent) : List AgreementEvent → List AgreementEvent
  | [] => [e]
  | x :: xs =>
    if e.blockNumber ≤ x.blockNumber then e :: x :: xs else x :: insertByBlock e xs

/-- Sorting step of `Program.getEventsOfProtocol`: ascending by block
number (a stable sort, as `Array.prototype.sort` is). -/
def sortEventsByBlock : List AgreementEvent → List AgreementEvent
  | [] => []
  | x :: xs => insertByBlock x (sortEventsByBlock xs)

/-- Per-provider inputs of one main-loop iteration: the provider runtime
and the two indexer fetches of the window; `none` models the fetch
rejecting with a transport error, which the `.catch` of the loop turns
into an empty list. -/
structure ProviderTick where
  prov : ProviderRT
  createFetch : Option (List AgreementEvent)
  closeFetch : Option (List AgreementEvent)

/-- Accumulator of one main-loop iteration: the store, the backend calls
made so far, and `highestProcessedBlock`. -/
structure TickAcc where
  store : Store
  calls : List BackendCall
  highest : Nat
deriving Repr

namespace Program

/-- Event lists a provider's iteration works through: a failed fetch is
caught by the loop's error handler and replaced by the empty list, a
successful fetch is sorted ascending by block number. -/
def fetchedEvents (fetch : Option (List AgreementEvent)) : List AgreementEvent :=
  match fetch with
  | some evs => sortEventsByBlock evs
  | none => []

/-- Body of the per-event loop of `Program.main`: run the (individually
caught) handler, append its backend calls, and update
`highestProcessedBlock` from the event's block either way. -/
def tickStep (process : Store → AgreementEvent → StepResult) (a : TickAcc)
    (e : AgreementEvent) : TickAcc :=
  let r := process a.store e
  ⟨r.store, a.calls ++ r.calls,
    if e.blockNumber > a.highest then e.blockNumber else a.highest⟩

/-- One provider's portion of a main-loop iteration: process every creation
event then every close event. -/
def tickProvider (env : Env) (pt : ProviderTick) (acc : TickAcc) : TickAcc :=
  let acc1 := (fetchedEvents pt.createFetch).foldl
    (tickStep (fun st e =>
      processAgreementCreationEvent env pt.prov ⟨e.id, e.offerId, e.userAddr⟩ st))
    acc
  (fetchedEvents pt.closeFetch).foldl
    (tickStep (fun st e => processAgreementCloseEvent env pt.prov e.id st))
    acc1

/-- Result of one main-loop iteration. -/
structure TickResult where
  store : Store
  lastProcessedBlock : Nat
  calls : List BackendCall
deriving DecidableEq, Repr

/-- Configuration key under which the cursor is persisted. -/
def CONFIG_LAST_PROCESSED_BLOCK : String := "LAST_PROCESSED_BLOCK"

/-- One iteration of the `while` loop of `Program.main`: reset
`highestProcessedBlock` to 0, work through every provider's events, then
advance the cursor — when no processed event reached the old cursor, jump
to `lastProcessedBlock + BLOCK_PROCESS_RANGE`, otherwise adopt the highest
processed event block — and persist it with `Database.setConfig`. -/
def tick (env : Env) (blockProcessRange : Nat) (providerTicks : List ProviderTick)
    (lastProcessedBlock : Nat) (s : Store) : TickResult :=
  let acc := providerTicks.foldl (fun a pt => tickProvider env pt a) ⟨s, [], 0⟩
  let highest :=
    if acc.highest < lastProcessedBlock then lastProcessedBlock + blockProcessRange
    else acc.highest
  ⟨DB.setConfig acc.store CONFIG_LAST_PROCESSED_BLOCK (toString highest),
    highest, acc.calls⟩

/-- `Program.getAgreementsOfProvider`: the provider's own agreements
followed by those of each of its virtual providers, in order. -/
def getAgreementsOfProvider (providerAgreements : List IndexerAgreement)
    (vProviderAgreements : List (List IndexerAgreement)) : List IndexerAgreement :=
  providerAgreements ++ vProviderAgreements.flatten

/-- One provider's portion of `Program.checkAgreementBalances`: list the
active agreements of the provider and its virtual providers (`none` models
the indexer fetch throwing, caught for this provider), filter those whose
balance is not positive and call `closeAgreement` on each; a failing close
call is logged and the sweep continues, so every id is attempted. -/
def checkAgreementBalances (fetched : Option (List IndexerAgreement)) : List Nat :=
  match fetched with
  | none => []
  | some agreements =>
    let agreementsToBeClosed := agreements.filter (fun a => decide (a.balance ≤ 0))
    agreementsToBeClosed.foldl (fun acc a => acc ++ [a.id]) []

end Program

/-- Request methods of the Pipe transports (`PipeMethods` of the SDK). -/
inductive PipeMethod where
  | GET
  | POST
  | PATCH
  | DELETE
deriving DecidableEq, BEq, Repr

/-- Key of the `providerRoutes` mapping of `src/pipe.ts`: method, provider
id and path (the source encodes it as the string `method-id-path`). -/
structure RouteKey where
  method : PipeMethod
  providerId : Nat
  path : String
deriving DecidableEq, BEq, Repr

/-- The `providerRoutes` record: route key to handler. Handlers are
identified by a number; assignment overwrites, which the association list
models by prepending, with lookup taking the first match. -/
abbrev ProviderRoutes := List (RouteKey × Nat)

/-- Assignment `providerRoutes[key] = handler`. -/
def setProviderRoute (routes : ProviderRoutes) (k : RouteKey) (h : Nat) : ProviderRoutes :=
  (k, h) :: routes

/-- Lookup `providerRoutes[key]`. -/
def lookupProviderRoute (routes : ProviderRoutes) (k : RouteKey) : Option Nat :=
  (routes.find? (fun e => e.1 == k)).map (fun e => e.2)

/-- `pipeProviderRoute` (src/pipe.ts): registers the handler under the
provider's own id and under the id of each virtual provider currently in
its roster. -/
def pipeProviderRoute (prov : ProviderRT) (method : PipeMethod) (path : String)
    (handler : Nat) (routes : ProviderRoutes) : ProviderRoutes :=
  let routes := setProviderRoute routes ⟨method, prov.actor.id, path⟩ handler
  prov.virtualProviders.foldl
    (fun rs v => setProviderRoute rs ⟨method, v.actor.id, path⟩ handler) routes

/-- Response codes of the Pipe transports (`PipeResponseCodes`). -/
inductive PipeCode where
  | OK
  | BAD_REQUEST
  | NOT_AUTHORIZED
  | NOT_FOUND
  | INTERNAL_SERVER_ERROR
deriving DecidableEq, Repr

/-- Outcome of the provider sub-dispatch wrapper installed by
`pipeProviderRoute`: reject when `providerId` is absent from both body and
params, reject when no handler is registered for the key, otherwise run
the matching handler. -/
inductive ProviderDispatch where
  | badRequest
  | notFound
  | handled (handler : Nat)
deriving DecidableEq, Repr

/-- Provider sub-dispatch of an incoming request (`src/pipe.ts`). -/
def dispatchProviderRequest (routes : ProviderRoutes) (method : PipeMethod)
    (path : String) (providerId : Option Nat) : ProviderDispatch :=
  match providerId with
  | none => ProviderDispatch.badRequest
  | some pid =>
    match lookupProviderRoute routes ⟨method, pid, path⟩ with
    | none => ProviderDispatch.notFound
    | some h => ProviderDispatch.handled h

/-- Validated parameters of a `GET /resources` request. -/
structure ResourcesRequest where
  requester : String
  id : Option Nat
  pt : Option String
deriving DecidableEq, Repr

/-- Responses of the `GET /resources` handler. -/
inductive ResourcesResponse where
  | all (resources : List ResourceView)
  | single (resource : ResourceView)
  | notFound
deriving DecidableEq, Repr

/-- Test of `name.startsWith("_")` on a field name, written over the
character list so that it reduces inside the kernel. -/
def startsWithUnderscore (s : String) : Bool :=
  match s.data with
  | [] => false
  | c :: _ => c == '_'

/-- Filtering loop of the single-resource branch of `/resources`: drop
every detail field whose name starts with an underscore. -/
def filterPrivateDetails (details : Details) : Details :=
  details.filter (fun kv => !startsWithUnderscore kv.1)

namespace AbstractProvider

/-- `AbstractProvider.routeHandlerResources`: when `id` or `pt` is absent,
return every resource of the requester; otherwise look the single resource
up (404 when absent) and return it with the underscore-prefixed detail
fields removed. -/
def routeHandlerResources (s : Store) (req : ResourcesRequest) : ResourcesResponse :=
  match req.id, req.pt with
  | some id, some pt =>
    (match DB.getResource s id req.requester pt with
    | none => ResourcesResponse.notFound
    | some resource =>
      ResourcesResponse.single
        { resource with details := filterPrivateDetails resource.details })
  | _, _ => ResourcesResponse.all (DB.getAllResourcesOfUser s req.requester)

end AbstractProvider

/-- Actor record returned by `Registry.getActor` (the fields the
virtual-provider registration consults). -/
structure ChainActor where
  id : Nat
  ownerAddr : String
  operatorAddr : String
  endpoint : String
  detailsLink : String
deriving DecidableEq, Repr

/-- External collaborators of the virtual-provider registration: the
registry lookup, the CID function and the two validation predicates
(JSON parse and `ProviderDetailsSchema`). -/
structure RegistryEnv where
  getActor : String → Option ChainActor
  cid : String → String
  parsesAsJSON : String → Bool
  validDetails : String → Bool

/-- Mutable surroundings of a Pipe request handler: the store, the files
written under `data/details/` and the in-memory `providerRoutes` table. -/
structure PipeWorld where
  store : Store
  disk : List (String × String)
  providerRoutes : ProviderRoutes
deriving DecidableEq, Repr

/-- Outcome of `routeHandlerRegisterVirtualProvider`: either the updated
world together with the OK response, or a thrown `PipeError` code. -/
inductive RegisterResult where
  | ok (w : PipeWorld)
  | err (code : PipeCode)
deriving DecidableEq, Repr

namespace AbstractProvider

/-- File name `vprov.<ownerLower>.details.<cid>.json` used when the
submitted details file is written back to `data/details/`. -/
def vprovDetailsFileName (ownerAddr cid : String) : String :=
  "vprov." ++ lower ownerAddr ++ ".details." ++ cid ++ ".json"

/-- `AbstractProvider.routeHandlerRegisterVirtualProvider`: reject when a
provider row for the requester already exists, when the details file does
not parse or validate, when the requester is not registered on chain, when
its operator or endpoint differ from the gateway's, or when the submitted
content's CID is not the on-chain `detailsLink`; on success write the file
to disk, upsert the detail blob, and save the provider row as a virtual
provider of this gateway. The in-memory route table and roster are not
touched. -/
def routeHandlerRegisterVirtualProvider (env : RegistryEnv) (gw : ChainActor)
    (requester detailsFile : String) (w : PipeWorld) : RegisterResult :=
  match DB.getProvider w.store requester with
  | some _ => RegisterResult.err PipeCode.BAD_REQUEST
  | none =>
    if !env.parsesAsJSON detailsFile then RegisterResult.err PipeCode.BAD_REQUEST
    else if !env.validDetails detailsFile then RegisterResult.err PipeCode.BAD_REQUEST
    else
      match env.getActor requester with
      | none => RegisterResult.err PipeCode.NOT_FOUND
      | some vProvider =>
        if lower vProvider.operatorAddr != lower gw.operatorAddr
            || vProvider.endpoint != gw.endpoint then
          RegisterResult.err PipeCode.BAD_REQUEST
        else
          let cid := env.cid detailsFile
          if vProvider.detailsLink != cid then RegisterResult.err PipeCode.NOT_FOUND
          else
            let fname := vprovDetailsFileName vProvider.ownerAddr cid
            let disk := w.disk ++ [(fname, detailsFile)]
            let store := (DB.insertDetailFile env.cid w.store detailsFile).1
            let store := DB.saveProvider store vProvider.id vProvider.ownerAddr true
              (some gw.id)
            RegisterResult.ok ⟨store, disk, w.providerRoutes⟩

end AbstractProvider

/-- Modelled from the spec: the cursor-advance rule stated in the spec's
reconciler section — "if `last + WINDOW < lastIndexedBlock`, advance by
WINDOW; else set `last := lastIndexedBlock`" — written here only to be
compared with the advance the code actually performs. -/
def specCursorAdvance (last window lastIndexedBlock : Nat) : Nat :=
  if last + window < lastIndexedBlock then last + window else lastIndexedBlock

/-- Largest block number occurring in a list of events (0 when empty). -/
def blocksMax (events : List AgreementEvent) : Nat :=
  (events.map (fun e => e.blockNumber)).foldr max 0

/-- Largest block number among all events a tick works through (those of
successful fetches; a failed fetch contributes nothing). -/
def maxFetchedBlock (pts : List ProviderTick) : Nat :=
  (pts.map (fun pt => max (blocksMax (Program.fetchedEvents pt.createFetch))
    (blocksMax (Program.fetchedEvents pt.closeFetch)))).foldr max 0

/-- Store invariant of the spec: an inactive resource row has empty details
and status `Closed`. -/
def ClosedWiped (s : Store) : Prop :=
  ∀ r ∈ s.resources, r.isActive = false →
    r.details = [] ∧ r.deploymentStatus = DeploymentStatus.Closed

/-- Uniqueness of the `(id, ptAddressId)` primary key of `resources`,
which the real store enforces. -/
def KeyUnique (s : Store) : Prop :=
  ∀ r1 ∈ s.resources, ∀ r2 ∈ s.resources,
    r1.id = r2.id → r1.ptAddressId = r2.ptAddressId → r1 = r2

/-- Whether a `/resources` response exposes a detail field whose name
begins with an underscore. -/
def responseHasPrivateKey : ResourcesResponse → Bool
  | ResourcesResponse.all rs =>
    rs.any (fun r => r.details.any (fun kv => startsWithUnderscore kv.1))
  | ResourcesResponse.single r => r.details.any (fun kv => startsWithUnderscore kv.1)
  | ResourcesResponse.notFound => false

/-- Projection of a successful registration outcome. -/
def registerOkWorld : RegisterResult → Option PipeWorld
  | RegisterResult.ok w => some w
  | RegisterResult.err _ => none

/-! Concrete fixtures used by the counterexamples and witnesses below. -/

/-- A provider runtime with no virtual providers, owner `0xp`, id 1,
operating on protocol `0xpt`. -/
def soloProv : ProviderRT := ⟨⟨1, "0xp"⟩, "0xpt", []⟩

/-- Minimal store for the solo provider: the protocol row, the provider
row, no resources. -/
def soloStore : Store :=
  ⟨[⟨1, "0xpt"⟩], [⟨1, "0xp", false, none⟩], [], [],
    [("LAST_PROCESSED_BLOCK", "99")]⟩

/-- World where every external call fails: the indexer snapshot is empty
and the backend always throws. -/
def failingEnv : Env := ⟨[], [], fun _ => none, fun _ => none, "rand"⟩

/-- World of end-to-end scenario 1: agreement 7 for offer 3 by user `0xu`
with the solo provider, still active; the backend provisions it as
`Running` at once. -/
def scenario1Env : Env :=
  ⟨[⟨7, 3, "0xu", "0xp", "0xpt", 50, AgreementStatus.Active⟩],
    [⟨3, "0xp", "cid3"⟩],
    fun i => if i == 7 then some ⟨some "res7", DeploymentStatus.Running, []⟩ else none,
    fun _ => none, "rand"⟩

/-- World of end-to-end scenario 2: agreement 8 was created at block 100
and closed at block 102, so the indexer snapshot already lists it as
`NotActive`. -/
def scenario2Env : Env :=
  ⟨[⟨8, 3, "0xu", "0xp", "0xpt", 0, AgreementStatus.NotActive⟩],
    [⟨3, "0xp", "cid3"⟩],
    fun i => if i == 8 then some ⟨some "res8", DeploymentStatus.Running, []⟩ else none,
    fun _ => none, "rand"⟩

/-- Store holding one resource of user `0xuser` whose stored details
contain the private field `_secret`. -/
def c4Store : Store :=
  ⟨[⟨1, "0xpt"⟩], [⟨5, "0xprov", false, none⟩],
    [⟨7, "box", "0xuser", [("_secret", "s3cr3t"), ("host", "h1")],
      DeploymentStatus.Running, "default", 3, true, 5, 1⟩],
    [], []⟩

/-- The single-resource view of the `c4Store` row after private-field
filtering. -/
def c4FilteredView : ResourceView :=
  ⟨7, "box", DeploymentStatus.Running, [("host", "h1")], "default", true,
    "0xuser", 3, 5, "0xprov", "0xpt"⟩

/-- Gateway actor of the virtual-provider registration fixtures. -/
def c5Gw : ChainActor := ⟨1, "0xgw", "0xop", "ep", "gwcid"⟩

/-- Registry world of the registration fixtures: `0xV` is registered on
chain with id 42, the gateway's operator and endpoint, and detail link
`cid-v`; the CID of the submitted content `details-v` is `cid-v`. -/
def c5Registry : RegistryEnv :=
  ⟨fun a => if lower a == "0xv" then some ⟨42, "0xV", "0xOP", "ep", "cid-v"⟩ else none,
    fun c => if c == "details-v" then "cid-v" else "cid-other",
    fun _ => true, fun _ => true⟩

/-- Provider-scoped route table of the gateway before the registration:
one route `GET /x` (handler 99) registered while the roster was empty. -/
def c5Routes : ProviderRoutes :=
  pipeProviderRoute ⟨⟨1, "0xgw"⟩, "0xpt", []⟩ PipeMethod.GET "/x" 99 []

/-- World before the `POST /virtual-providers` request. -/
def c5World : PipeWorld :=
  ⟨⟨[⟨1, "0xpt"⟩], [⟨1, "0xgw", false, none⟩], [], [], []⟩, [], c5Routes⟩

/-- World after the successful registration of `0xV`. -/
def c5WorldAfter : PipeWorld :=
  ⟨⟨[⟨1, "0xpt"⟩], [⟨1, "0xgw", false, none⟩, ⟨42, "0xv", true, some 1⟩], [],
      [⟨"cid-v", "details-v"⟩], []⟩,
    [("vprov.0xv.details.cid-v.json", "details-v")], c5Routes⟩

/-- World of the create-replay fixture: agreement 7 is active for user
`0xU` and the backend reports a `Deploying` resource. -/
def replayEnv : Env :=
  ⟨[⟨7, 3, "0xU", "0xp", "0xpt", 5, AgreementStatus.Active⟩],
    [⟨3, "0xp", "cid3"⟩],
    fun i => if i == 7 then some ⟨none, DeploymentStatus.Deploying, [("k", "v")]⟩ else none,
    fun _ => none, "rand"⟩

/-- Store of the watcher fixture: one active `Deploying` resource and one
closed resource, distinct ids. -/
def c7Store : Store :=
  ⟨[⟨1, "0xpt"⟩], [⟨1, "0xp", false, none⟩],
    [⟨1, "n", "0xa", [("x", "1")], DeploymentStatus.Deploying, "default", 2, true, 1, 1⟩,
      ⟨2, "m", "0xb", [], DeploymentStatus.Closed, "default", 3, false, 1, 1⟩],
    [], []⟩

/-- World of the watcher fixture: `getDetails` reports `Running`. -/
def c7Env : Env :=
  ⟨[], [], fun _ => none,
    fun _ => some ⟨none, DeploymentStatus.Running, [("y", "2")]⟩, "rand"⟩

/-- Active agreements listed in the sweep fixture: id 11 with balance
exactly 0, id 12 with balance 1. -/
def c8Agreements : List IndexerAgreement :=
  [⟨11, 1, "0xu", "0xp", "0xpt", 0, AgreementStatus.Active⟩,
    ⟨12, 1, "0xu", "0xp", "0xpt", 1, AgreementStatus.Active⟩]

/-- Contents synced in the detail-file fixture. -/
def c9Contents : List String := ["fileA", "fileB"]

/-- CID function of the detail-file fixture. -/
def c9Cid (c : String) : String := "cid-" ++ c

/-- Store before the sync of the detail-file fixture: one row that is
kept (its CID reappears) and one stale row. -/
def c9Store : Store :=
  ⟨[], [], [], [⟨"cid-fileA", "fileA"⟩, ⟨"stale", "old"⟩], []⟩

/-- World of the skipped-creation fixture: agreement 9 is already
`NotActive` in the snapshot. -/
def c10Env : Env :=
  ⟨[⟨9, 1, "0xu", "0xp", "0xpt", 0, AgreementStatus.NotActive⟩],
    [⟨1, "0xp", "cid1"⟩],
    fun _ => some ⟨none, DeploymentStatus.Running, []⟩,
    fun _ => none, "rand"⟩

/-! Supporting lemmas (shared across the claim theorems). -/

/-- Updating the matching entries of an association list makes the updated
pair findable. -/
theorem find_map_upsert (l : List (String × String)) (k v : String)
    (h : l.any (fun kv => kv.1 == k) = true) :
    List.find? (fun kv => kv.1 == k)
      (l.map (fun kv => if kv.1 == k then (k, v) else kv)) = some (k, v) := by
  induction l with
  | nil => simp at h
  | cons kv rest ih =>
    by_cases hk : (kv.1 == k) = true
    · simp [hk, List.find?]
    · simp only [List.any_cons, hk, Bool.false_or] at h
      simp only [List.map_cons, hk, if_false, Bool.false_eq_true]
      rw [List.find?_cons_of_neg _ (by simp [hk]), ih h]

/-- Appending a fresh pair to an association list with no matching entry
makes the appended pair findable. -/
theorem find_append_new (l : List (String × String)) (k v : String)
    (h : l.any (fun kv => kv.1 == k) = false) :
    List.find? (fun kv => kv.1 == k) (l ++ [(k, v)]) = some (k, v) := by
  induction l with
  | nil => simp [List.find?]
  | cons kv rest ih =>
    simp only [List.any_cons, Bool.or_eq_false_iff] at h
    rw [List.cons_append, List.find?_cons_of_neg _ (by simp [h.1]), ih h.2]

/-- Reading back a key right after `setConfig` yields the written value. -/
theorem getConfig_setConfig (s : Store) (k v : String) :
    DB.getConfig (DB.setConfig s k v) k = some v := by
  unfold DB.getConfig DB.setConfig
  by_cases h : s.config.any (fun kv => kv.1 == k)
  · rw [if_pos h, find_map_upsert s.config k v h]
    rfl
  · rw [if_neg h, find_append_new s.config k v (Bool.eq_false_iff.mpr h)]
    rfl

/-- `setConfig` touches only the `config` table. -/
theorem setConfig_resources (s : Store) (k v : String) :
    (DB.setConfig s k v).resources = s.resources := by
  unfold DB.setConfig
  split <;> rfl

/-- Folding an append of singletons is a map. -/
theorem foldl_append_singleton {α β : Type} (f : α → β) (l : List α) (acc : List β) :
    l.foldl (fun acc a => acc ++ [f a]) acc = acc ++ l.map f := by
  induction l generalizing acc with
  | nil => simp
  | cons x xs ih => simp [ih]

/-- C8: on a balance-sweeper tick, among the active agreements listed for a
provider and its virtual providers, `closeAgreement` is invoked exactly for
those whose balance is ≤ 0; in particular an agreement whose balance is
exactly zero is force-closed, and one whose balance is positive (with no
other listing of the same id at a non-positive balance) is not closed. -/
theorem claim8_balance_sweep_closes_nonpositive
    (providerAgreements : List IndexerAgreement)
    (vProviderAgreements : List (List IndexerAgreement)) :
    Program.checkAgreementBalances
        (some (Program.getAgreementsOfProvider providerAgreements vProviderAgreements)) =
      ((Program.getAgreementsOfProvider providerAgreements vProviderAgreements).filter
        (fun a => decide (a.balance ≤ 0))).map (fun a => a.id) ∧
    (∀ a ∈ Program.getAgreementsOfProvider providerAgreements vProviderAgreements,
      a.balance = 0 →
      a.id ∈ Program.checkAgreementBalances
        (some (Program.getAgreementsOfProvider providerAgreements vProviderAgreements))) ∧
    (∀ a ∈ Program.getAgreementsOfProvider providerAgreements vProviderAgreements,
      (∀ b ∈ Program.getAgreementsOfProvider providerAgreements vProviderAgreements,
        b.id = a.id → 0 < b.balance) →
      a.id ∉ Program.checkAgreementBalances
        (some (Program.getAgreementsOfProvider providerAgreements vProviderAgreements))) := by
  have hmap : Program.checkAgreementBalances
      (some (Program.getAgreementsOfProvider providerAgreements vProviderAgreements)) =
      ((Program.getAgreementsOfProvider providerAgreements vProviderAgreements).filter
        (fun a => decide (a.balance ≤ 0))).map (fun a => a.id) := by
    show List.foldl (fun acc a => acc ++ [a.id]) []
        (List.filter (fun a => decide (a.balance ≤ 0))
          (Program.getAgreementsOfProvider providerAgreements vProviderAgreements)) = _
    rw [foldl_append_singleton (fun a : IndexerAgreement => a.id)]
    rfl
  refine ⟨hmap, ?_, ?_⟩
  · intro a ha hzero
    rw [hmap]
    exact List.mem_map.mpr ⟨a, List.mem_filter.mpr ⟨ha, by simp [hzero]⟩, rfl⟩
  · intro a ha hpos hmem
    rw [hmap] at hmem
    obtain ⟨b, hb, hbid⟩ := List.mem_map.mp hmem
    have hbf := List.mem_filter.mp hb
    have hble : b.balance ≤ 0 := by simpa using hbf.2
    have := hpos b hbf.1 hbid
    omega

/-- C8 witness: in the concrete sweep listing, agreement 11 (balance 0) is
closed and agreement 12 (balance 1) is not. -/
theorem claim8_witness :
    11 ∈ Program.checkAgreementBalances
        (some (Program.getAgreementsOfProvider c8Agreements [])) ∧
    12 ∉ Program.checkAgreementBalances
        (some (Program.getAgreementsOfProvider c8Agreements [])) := by
  have h := claim8_balance_sweep_closes_nonpositive c8Agreements []
  refine ⟨?_, ?_⟩
  · have := h.2.1 ⟨11, 1, "0xu", "0xp", "0xpt", 0, AgreementStatus.Active⟩
      (by decide) (by decide)
    simpa using this
  · have := h.2.2 ⟨12, 1, "0xu", "0xp", "0xpt", 1, AgreementStatus.Active⟩
      (by decide) (by decide)
    simpa using this

/-- Rows present before the conflict-skipping insert fold survive it. -/
theorem mem_syncFold_of_mem (vs : List DetailFileRow) (t : List DetailFileRow)
    (df : DetailFileRow) (h : df ∈ t) :
    df ∈ vs.foldl (fun table v =>
      if table.any (fun x => x.cid == v.cid) then table else table ++ [v]) t := by
  induction vs generalizing t with
  | nil => simpa using h
  | cons v vs ih =>
    simp only [List.foldl_cons]
    by_cases hc : t.any (fun x => x.cid == v.cid)
    · simpa [hc] using ih t h
    · simpa [hc] using ih (t ++ [v]) (List.mem_append_left _ h)

/-- After the conflict-skipping insert fold, every inserted value's CID is
present in the table. -/
theorem cid_mem_syncFold (vs : List DetailFileRow) (t : List DetailFileRow)
    (v : DetailFileRow) (hv : v ∈ vs) :
    ∃ df ∈ vs.foldl (fun table w =>
      if table.any (fun x => x.cid == w.cid) then table else table ++ [w]) t,
      df.cid = v.cid := by
  induction vs generalizing t with
  | nil => cases hv
  | cons w ws ih =>
    simp only [List.foldl_cons]
    rcases List.mem_cons.mp hv with hvw | hvs
    · subst hvw
      by_cases hc : t.any (fun x => x.cid == v.cid)
      · obtain ⟨x, hx, hxc⟩ := List.any_eq_true.mp hc
        refine ⟨x, ?_, by simpa using hxc⟩
        simpa [hc] using mem_syncFold_of_mem ws t x hx
      · refine ⟨v, ?_, rfl⟩
        simpa [hc] using mem_syncFold_of_mem ws (t ++ [v]) v (by simp)
    · by_cases hc : t.any (fun x => x.cid == w.cid)
      · simpa [hc] using ih t hvs
      · simpa [hc] using ih (t ++ [w]) hvs

/-- Every row of the table after the conflict-skipping insert fold was
already present or is one of the inserted values. -/
theorem syncFold_subset (vs : List DetailFileRow) (t : List DetailFileRow) :
    ∀ df ∈ vs.foldl (fun table v =>
      if table.any (fun x => x.cid == v.cid) then table else table ++ [v]) t,
      df ∈ t ∨ df ∈ vs := by
  induction vs generalizing t with
  | nil => intro df h; exact Or.inl (by simpa using h)
  | cons v vs ih =>
    intro df h
    simp only [List.foldl_cons] at h
    by_cases hc : t.any (fun x => x.cid == v.cid)
    · rcases ih t df (by simpa [hc] using h) with h1 | h1
      · exact Or.inl h1
      · exact Or.inr (List.mem_cons_of_mem _ h1)
    · rcases ih (t ++ [v]) df (by simpa [hc] using h) with h1 | h1
      · rcases List.mem_append.mp h1 with h2 | h2
        · exact Or.inl h2
        · exact Or.inr (by simp [List.mem_singleton.mp h2])
      · exact Or.inr (List.mem_cons_of_mem _ h1)

/-- C9: after `syncDetailFiles` for a list of file contents, the set of
CIDs in `detail_files` is exactly the set of CIDs of the given contents:
rows with other CIDs are deleted, rows whose CID reappears are kept
unchanged, and every remaining row was either kept or is one of the new
`(cid content, content)` rows. The whole step is the single transaction of
`Database.syncDetailFiles`, modelled as one atomic store update. -/
theorem claim9_sync_detail_files_cid_set (cid : String → String) (s : Store)
    (contents : List String) :
    (∀ c : String,
      (∃ df ∈ (DB.syncDetailFiles cid s contents).detailFiles, df.cid = c) ↔
        c ∈ contents.map cid) ∧
    (∀ df ∈ s.detailFiles, df.cid ∈ contents.map cid →
      df ∈ (DB.syncDetailFiles cid s contents).detailFiles) ∧
    (∀ df ∈ (DB.syncDetailFiles cid s contents).detailFiles,
      df ∈ s.detailFiles ∨ df ∈ contents.map (fun c => DetailFileRow.mk (cid c) c)) := by
  unfold DB.syncDetailFiles
  by_cases hempty : (contents.map (fun c => DetailFileRow.mk (cid c) c)).isEmpty
  · have hc : contents = [] := by
      cases contents with
      | nil => rfl
      | cons x xs => simp [List.isEmpty] at hempty
    subst hc
    simp
  · simp only [hempty, if_false, Bool.false_eq_true]
    set values := contents.map (fun c => DetailFileRow.mk (cid c) c) with hvalues
    set kept := s.detailFiles.filter (fun df => values.any (fun v => v.cid == df.cid))
      with hkept
    refine ⟨?_, ?_, ?_⟩
    · intro c
      constructor
      · rintro ⟨df, hdf, rfl⟩
        rcases syncFold_subset values kept df hdf with h1 | h1
        · have := (List.mem_filter.mp h1).2
          obtain ⟨v, hv, hvc⟩ := List.any_eq_true.mp this
          obtain ⟨cnt, hcnt, rfl⟩ := List.mem_map.mp hv
          have : cid cnt = df.cid := by simpa using hvc
          rw [← this]
          exact List.mem_map.mpr ⟨cnt, hcnt, rfl⟩
        · obtain ⟨cnt, hcnt, rfl⟩ := List.mem_map.mp h1
          exact List.mem_map.mpr ⟨cnt, hcnt, rfl⟩
      · intro hc
        obtain ⟨cnt, hcnt, rfl⟩ := List.mem_map.mp hc
        obtain ⟨df, hdf, hdfc⟩ := cid_mem_syncFold values kept
          (DetailFileRow.mk (cid cnt) cnt) (List.mem_map.mpr ⟨cnt, hcnt, rfl⟩)
        exact ⟨df, hdf, hdfc⟩
    · intro df hdf hcid
      apply mem_syncFold_of_mem
      rw [hkept]
      refine List.mem_filter.mpr ⟨hdf, ?_⟩
      obtain ⟨cnt, hcnt, hc⟩ := List.mem_map.mp hcid
      exact List.any_eq_true.mpr ⟨DetailFileRow.mk (cid cnt) cnt,
        List.mem_map.mpr ⟨cnt, hcnt, rfl⟩, by simp [hc]⟩
    · intro df hdf
      rcases syncFold_subset values kept df hdf with h1 | h1
      · exact Or.inl (List.mem_filter.mp h1).1
      · exact Or.inr h1

/-- C9 witness: in the concrete sync fixture the kept row survives with its
content and the new CID appears. -/
theorem claim9_witness :
    (DetailFileRow.mk "cid-fileA" "fileA") ∈
      (DB.syncDetailFiles c9Cid c9Store c9Contents).detailFiles ∧
    ∃ df ∈ (DB.syncDetailFiles c9Cid c9Store c9Contents).detailFiles,
      df.cid = "cid-fileB" := by
  have h := claim9_sync_detail_files_cid_set c9Cid c9Store c9Contents
  exact ⟨h.2.1 (DetailFileRow.mk "cid-fileA" "fileA") (by decide) (by decide),
    (h.1 "cid-fileB").mpr (by decide)⟩

/-- An agreement id that the snapshot never lists as `Active` makes the
creation handler's `Active` query come back empty. -/
theorem getAgreement_active_none (env : Env) (id : Nat) (ptAddr : String)
    (h : ∀ a ∈ env.agreements, a.id = id → a.status ≠ AgreementStatus.Active) :
    Env.getAgreement env id ptAddr AgreementStatus.Active = none := by
  unfold Env.getAgreement
  rw [List.filter_eq_nil_iff.mpr]
  · rfl
  · intro a ha
    simp only [Bool.and_eq_true, beq_iff_eq, not_and]
    intro haid hst
    exact h a ha haid.1 hst

/-- The creation handler is a complete no-op whenever its `Active` query
for the agreement comes back empty (whether or not a local row exists). -/
theorem processCreation_skip (env : Env) (prov : ProviderRT)
    (params : Program.CreationEventParams) (s : Store)
    (hAg : Env.getAgreement env params.agreementId prov.protocolAddress
      AgreementStatus.Active = none) :
    Program.processAgreementCreationEvent env prov params s = ⟨s, [], false⟩ := by
  unfold Program.processAgreementCreationEvent
  cases hr : DB.getResource s params.agreementId params.userAddress prov.protocolAddress with
  | none => rw [hAg]
  | some _ => rfl

/-- C10: when, at processing time, the indexer no longer lists the created
agreement as `Active` (it was already closed on chain), the creation
handler returns without touching the store, without creating a resource
row and without calling `ServiceBackend.create`. -/
theorem claim10_create_skips_inactive_agreement (env : Env) (prov : ProviderRT)
    (params : Program.CreationEventParams) (s : Store)
    (h : ∀ a ∈ env.agreements, a.id = params.agreementId →
      a.status ≠ AgreementStatus.Active) :
    Program.processAgreementCreationEvent env prov params s = ⟨s, [], false⟩ :=
  processCreation_skip env prov params s
    (getAgreement_active_none env params.agreementId prov.protocolAddress h)

/-- C10 witness: agreement 9 is only listed as `NotActive`, so processing
its creation event changes nothing. -/
theorem claim10_witness :
    Program.processAgreementCreationEvent c10Env soloProv ⟨9, 1, "0xu"⟩ soloStore =
      ⟨soloStore, [], false⟩ :=
  claim10_create_skips_inactive_agreement c10Env soloProv ⟨9, 1, "0xu"⟩ soloStore
    (by decide)

/-- C1: contrary to the claim, a reconciler tick in which fetching both
event lists fails with a transport error still advances the persisted
LAST_PROCESSED_BLOCK cursor: with the cursor at 99 and
BLOCK_PROCESS_RANGE 1000, the tick persists 1099, skipping the whole
window that was never fetched. -/
theorem claim1_cursor_advances_on_transport_error :
    (Program.tick failingEnv 1000 [⟨soloProv, none, none⟩] 99 soloStore).lastProcessedBlock
      = 1099 ∧
    DB.getConfig (Program.tick failingEnv 1000 [⟨soloProv, none, none⟩] 99 soloStore).store
      Program.CONFIG_LAST_PROCESSED_BLOCK = some "1099" ∧
    DB.getConfig soloStore Program.CONFIG_LAST_PROCESSED_BLOCK = some "99" := by
  refine ⟨by decide, ?_, by decide⟩
  decide

/-- C4 counterexample: the list-all branch of `GET /resources` (taken when
`id` or `pt` is absent) returns the stored details unchanged, so the
private field `_secret` of the stored JSON appears in the response. -/
theorem claim4_counterexample :
    responseHasPrivateKey
      (AbstractProvider.routeHandlerResources c4Store ⟨"0xuser", none, none⟩) = true := by
  decide

/-- C4 amended: only the single-resource branch of `GET /resources` strips
detail fields whose name begins with an underscore — whenever that branch
returns a resource, its details are exactly the stored details with the
underscore-prefixed fields removed, and no underscore-prefixed key
remains. The list-all branch returns stored details unfiltered. -/
theorem claim4_single_branch_filters_private_details (s : Store) (requester : String)
    (id : Nat) (pt : String) (r : ResourceView)
    (h : AbstractProvider.routeHandlerResources s ⟨requester, some id, some pt⟩ =
      ResourcesResponse.single r) :
    (r.details.all (fun kv => !startsWithUnderscore kv.1)) = true ∧
    ∃ r0, DB.getResource s id requester pt = some r0 ∧
      r.details = filterPrivateDetails r0.details := by
  unfold AbstractProvider.routeHandlerResources at h
  dsimp only at h
  cases hr : DB.getResource s id requester pt with
  | none =>
    rw [hr] at h
    exact absurd h (by simp)
  | some r0 =>
    rw [hr] at h
    simp only [ResourcesResponse.single.injEq] at h
    subst h
    refine ⟨?_, r0, rfl, rfl⟩
    apply List.all_eq_true.mpr
    intro kv hkv
    have := List.mem_filter.mp hkv
    exact this.2

/-- C4 witness: requesting resource 7 through the single-resource branch
(with mixed-case requester and protocol address) yields the row with
`_secret` removed and `host` kept. -/
theorem claim4_witness :
    (c4FilteredView.details.all (fun kv => !startsWithUnderscore kv.1)) = true ∧
    ∃ r0, DB.getResource c4Store 7 "0xUSER" "0xPT" = some r0 ∧
      c4FilteredView.details = filterPrivateDetails r0.details :=
  claim4_single_branch_filters_private_details c4Store "0xUSER" 7 "0xPT"
    c4FilteredView (by decide)

/-- The `highestProcessedBlock` component of the per-event loop is the
maximum of its starting value and the blocks of the worked-through events,
independent of what the handlers do to the store. -/
theorem foldl_tickStep_highest (process : Store → AgreementEvent → StepResult)
    (l : List AgreementEvent) (acc : TickAcc) :
    (l.foldl (Program.tickStep process) acc).highest = max acc.highest (blocksMax l) := by
  induction l generalizing acc with
  | nil => simp [blocksMax]
  | cons x xs ih =>
    rw [List.foldl_cons, ih]
    have hbm : blocksMax (x :: xs) = max x.blockNumber (blocksMax xs) := rfl
    have hstep : (Program.tickStep process acc x).highest =
        if x.blockNumber > acc.highest then x.blockNumber else acc.highest := rfl
    rw [hbm, hstep]
    by_cases h : x.blockNumber > acc.highest
    · rw [if_pos h]; omega
    · rw [if_neg h]; omega

/-- One provider's iteration raises `highestProcessedBlock` exactly to the
largest block among its fetched events. -/
theorem tickProvider_highest (env : Env) (pt : ProviderTick) (acc : TickAcc) :
    (Program.tickProvider env pt acc).highest =
    max acc.highest (max (blocksMax (Program.fetchedEvents pt.createFetch))
      (blocksMax (Program.fetchedEvents pt.closeFetch))) := by
  unfold Program.tickProvider
  rw [foldl_tickStep_highest, foldl_tickStep_highest]
  omega

/-- Across all providers of a tick, `highestProcessedBlock` becomes the
maximum of its starting value and every fetched event block. -/
theorem foldl_tickProvider_highest (env : Env) (pts : List ProviderTick) (acc : TickAcc) :
    (pts.foldl (fun a pt => Program.tickProvider env pt a) acc).highest =
    max acc.highest (maxFetchedBlock pts) := by
  induction pts generalizing acc with
  | nil => simp [maxFetchedBlock]
  | cons pt pts ih =>
    rw [List.foldl_cons, ih, tickProvider_highest]
    have : maxFetchedBlock (pt :: pts) =
        max (max (blocksMax (Program.fetchedEvents pt.createFetch))
          (blocksMax (Program.fetchedEvents pt.closeFetch))) (maxFetchedBlock pts) := rfl
    rw [this]
    omega

/-- C2 counterexample: in the single-create tick of scenario 1 (cursor 99,
window 1000, one creation event at block 100) the code persists 100 — the
highest processed event block — whereas the claimed rule yields
`min(99 + WINDOW, lastIndexedBlock) = 200` for an indexer whose last
indexed block is 200. The code never reads a `lastIndexedBlock`. -/
theorem claim2_counterexample :
    DB.getConfig (Program.tick scenario1Env 1000
        [⟨soloProv, some [⟨100, 7, 3, "0xu"⟩], some []⟩] 99 soloStore).store
      Program.CONFIG_LAST_PROCESSED_BLOCK = some "100" ∧
    specCursorAdvance 99 1000 200 = 200 ∧
    Nat.min (99 + 1000) 200 = 200 ∧
    (100 : Nat) ≠ 200 := by
  refine ⟨by decide, by decide, by decide, by decide⟩

/-- C2 amended: at the end of every reconciler tick the cursor becomes the
highest block among the events worked through in that tick when that is at
least the previous cursor, and `previous + BLOCK_PROCESS_RANGE` otherwise
(in particular when nothing was fetched); the new value is persisted under
LAST_PROCESSED_BLOCK. The code consults no `lastIndexedBlock`. In
scenario 1 the persisted value is therefore 100, the event's block. -/
theorem claim2_cursor_advance_rule (env : Env) (range : Nat) (pts : List ProviderTick)
    (last : Nat) (s : Store) :
    (Program.tick env range pts last s).lastProcessedBlock =
      (if maxFetchedBlock pts < last then last + range else maxFetchedBlock pts) ∧
    DB.getConfig (Program.tick env range pts last s).store
        Program.CONFIG_LAST_PROCESSED_BLOCK =
      some (toString (Program.tick env range pts last s).lastProcessedBlock) := by
  constructor
  · show (if (pts.foldl (fun a pt => Program.tickProvider env pt a)
        ⟨s, [], 0⟩).highest < last then last + range
      else (pts.foldl (fun a pt => Program.tickProvider env pt a) ⟨s, [], 0⟩).highest) = _
    rw [foldl_tickProvider_highest]
    have : max (⟨s, [], 0⟩ : TickAcc).highest (maxFetchedBlock pts) =
        maxFetchedBlock pts := by
      show max 0 (maxFetchedBlock pts) = maxFetchedBlock pts
      omega
    rw [this]
  · exact getConfig_setConfig _ _ _

/-- A store with no resource row of the given id makes `getResource` miss
for every owner. -/
theorem getResource_none_of_no_id (s : Store) (id : Nat) (owner ptAddr : String)
    (h : ∀ r ∈ s.resources, r.id ≠ id) :
    DB.getResource s id owner ptAddr = none := by
  unfold DB.getResource
  cases hp : DB.getProtocol s ptAddr with
  | none => rfl
  | some pt =>
    dsimp only
    rw [List.filterMap_eq_nil_iff.mpr ?_]
    · rfl
    · intro r hr
      simp [h r hr]

/-- The close handler leaves the store untouched and calls no backend
`delete` when no local row of the agreement id exists (whether or not the
indexer still knows the agreement). -/
theorem processClose_skip_no_row (env : Env) (prov : ProviderRT) (aid : Nat) (s : Store)
    (hNoRow : ∀ r ∈ s.resources, r.id ≠ aid) :
    ∃ b, Program.processAgreementCloseEvent env prov aid s = ⟨s, [], b⟩ := by
  unfold Program.processAgreementCloseEvent
  cases hag : env.getAgreement aid prov.protocolAddress AgreementStatus.NotActive with
  | none => exact ⟨true, rfl⟩
  | some ag =>
    dsimp only
    rw [getResource_none_of_no_id s aid ag.userAddress prov.protocolAddress hNoRow]
    exact ⟨false, rfl⟩

/-- C3 counterexample: in the very scenario of the claim (create at block
100, close at block 102 for agreement 8, both in one window), the tick
makes no backend call at all — the creation handler's `Active` query finds
the already-closed agreement gone, and the close handler then finds no
local row — and no resource row exists afterwards. -/
theorem claim3_counterexample :
    (Program.tick scenario2Env 1000
      [⟨soloProv, some [⟨100, 8, 3, "0xu"⟩], some [⟨102, 8, 0, ""⟩]⟩]
      99 soloStore).calls = [] ∧
    (Program.tick scenario2Env 1000
      [⟨soloProv, some [⟨100, 8, 3, "0xu"⟩], some [⟨102, 8, 0, ""⟩]⟩]
      99 soloStore).store.resources = [] := by
  refine ⟨by decide, by decide⟩

/-- C3 amended: when an `AgreementCreated` and a later `AgreementClosed`
event for the same agreement id are fetched in one window and the indexer
snapshot already lists the agreement as `NotActive` (which fetching the
close event implies), processing the window invokes neither
`ServiceBackend.create` nor `ServiceBackend.delete`, and no resource row
for the agreement exists afterwards: the resources table is unchanged. -/
theorem claim3_create_close_same_window_skip (env : Env) (prov : ProviderRT)
    (range last : Nat) (e1 e2 : AgreementEvent) (s : Store)
    (hid : e2.id = e1.id)
    (hClosed : ∀ a ∈ env.agreements, a.id = e1.id →
      a.status = AgreementStatus.NotActive)
    (hNoRow : ∀ r ∈ s.resources, r.id ≠ e1.id) :
    (Program.tick env range [⟨prov, some [e1], some [e2]⟩] last s).calls = [] ∧
    (Program.tick env range [⟨prov, some [e1], some [e2]⟩] last s).store.resources =
      s.resources := by
  have hcreate : Program.processAgreementCreationEvent env prov
      ⟨e1.id, e1.offerId, e1.userAddr⟩ s = ⟨s, [], false⟩ :=
    processCreation_skip env prov ⟨e1.id, e1.offerId, e1.userAddr⟩ s
      (getAgreement_active_none env e1.id prov.protocolAddress
        (fun a ha haid => by simp [hClosed a ha haid]))
  obtain ⟨b, hclose⟩ := processClose_skip_no_row env prov e2.id s
    (by rw [hid]; exact hNoRow)
  refine ⟨?_, ?_⟩ <;>
    simp only [Program.tick, Program.tickProvider, Program.tickStep,
      Program.fetchedEvents, sortEventsByBlock, insertByBlock,
      List.foldl_cons, List.foldl_nil, hcreate, hclose, List.nil_append,
      List.append_nil, setConfig_resources]

/-- C3 witness: the amended statement applied to the concrete scenario-2
inputs. -/
theorem claim3_witness :
    (Program.tick scenario2Env 500
      [⟨soloProv, some [⟨100, 8, 3, "0xu"⟩], some [⟨102, 8, 0, ""⟩]⟩]
      99 soloStore).calls = [] ∧
    (Program.tick scenario2Env 500
      [⟨soloProv, some [⟨100, 8, 3, "0xu"⟩], some [⟨102, 8, 0, ""⟩]⟩]
      99 soloStore).store.resources = soloStore.resources :=
  claim3_create_close_same_window_skip scenario2Env soloProv 500 99
    ⟨100, 8, 3, "0xu"⟩ ⟨102, 8, 0, ""⟩ soloStore (by decide) (by decide) (by decide)

/-- A successful `getResource` exposes a matching underlying resource row:
same id, the protocol's id, a case-insensitively matching owner, and the
view mirrors the row's `isActive`, `details` and `id`. -/
theorem getResource_some_spec (s : Store) (id : Nat) (owner ptAddr : String)
    (view : ResourceView) (h : DB.getResource s id owner ptAddr = some view) :
    ∃ pt r0, DB.getProtocol s ptAddr = some pt ∧ r0 ∈ s.resources ∧
      r0.id = id ∧ r0.ptAddressId = pt.id ∧ lower r0.ownerAddress = lower owner ∧
      view.isActive = r0.isActive ∧ view.details = r0.details ∧ view.id = r0.id := by
  unfold DB.getResource at h
  cases hp : DB.getProtocol s ptAddr with
  | none => rw [hp] at h; exact absurd h (by simp)
  | some pt =>
    rw [hp] at h
    dsimp only at h
    obtain ⟨ys, hl⟩ := List.head?_eq_some_iff.mp h
    have hmem : view ∈ List.filterMap (fun r =>
        if (r.id == id && lower r.ownerAddress == lower owner
            && r.ptAddressId == pt.id) = true then
          DB.viewOf s r pt.address
        else none) s.resources := by
      rw [hl]; exact List.mem_cons_self _ _
    rcases List.mem_filterMap.mp hmem with ⟨r0, hr0, hf⟩
    by_cases hcond : (r0.id == id && lower r0.ownerAddress == lower owner
        && r0.ptAddressId == pt.id) = true
    · rw [if_pos hcond] at hf
      simp only [Bool.and_eq_true, beq_iff_eq] at hcond
      obtain ⟨⟨hid, hown⟩, hpt2⟩ := hcond
      unfold DB.viewOf at hf
      rcases Option.map_eq_some'.mp hf with ⟨p, _hp2, hv⟩
      exact ⟨pt, r0, rfl, hr0, hid, hpt2, hown,
        by rw [← hv], by rw [← hv], by rw [← hv]⟩
    · rw [if_neg hcond] at hf
      exact absurd hf (by simp)

/-- `deleteResource` preserves the closed-resource invariant: every row it
touches ends inactive with empty details and status `Closed`. -/
theorem closedWiped_deleteResource (s : Store) (id : Nat) (ptAddr : String)
    (hI : ClosedWiped s) : ClosedWiped (DB.deleteResource s id ptAddr) := by
  unfold DB.deleteResource DB.updateResource
  cases hp : DB.getProtocol s ptAddr with
  | none => exact hI
  | some pt =>
    dsimp only
    intro r hr _hact
    rcases List.mem_map.mp hr with ⟨r1, hr1, hmap⟩
    by_cases hc : (r1.id == id && r1.ptAddressId == pt.id) = true
    · rw [if_pos hc] at hmap
      constructor <;> simp [← hmap]
    · rw [if_neg hc] at hmap
      subst hmap
      exact hI r1 hr1 _hact

/-- The creation handler preserves the closed-resource invariant: it
either leaves the store alone or inserts a row with `isActive := true`. -/
theorem closedWiped_processCreation (env : Env) (prov : ProviderRT)
    (params : Program.CreationEventParams) (s : Store) (hI : ClosedWiped s) :
    ClosedWiped (Program.processAgreementCreationEvent env prov params s).store := by
  unfold Program.processAgreementCreationEvent Program.createResource DB.createResource
  repeat' (first | split | dsimp only)
  all_goals first
    | exact hI
    | (intro r hr hact
       rcases List.mem_append.mp hr with h1 | h1
       · exact hI r h1 hact
       · rw [List.mem_singleton.mp h1] at hact
         exact absurd hact (by simp))

/-- The close handler preserves the closed-resource invariant. -/
theorem closedWiped_processClose (env : Env) (prov : ProviderRT) (aid : Nat)
    (s : Store) (hI : ClosedWiped s) :
    ClosedWiped (Program.processAgreementCloseEvent env prov aid s).store := by
  unfold Program.processAgreementCloseEvent Program.deleteResource
  repeat' (first | split | dsimp only)
  all_goals first
    | exact hI
    | exact closedWiped_deleteResource s aid prov.protocolAddress hI

/-- One watcher poll preserves the closed-resource invariant: it only ever
updates the row it loaded, which it saw active (the primary key makes that
row unique). -/
theorem closedWiped_watchStep (env : Env) (p : Program.WatchParams) (s : Store)
    (hU : KeyUnique s) (hI : ClosedWiped s) :
    ClosedWiped (Program.watchResourceStatusStep env p s) := by
  unfold Program.watchResourceStatusStep
  cases hres : DB.getResource s p.agreementId p.ownerAddress p.ptAddress with
  | none => exact hI
  | some resource =>
    dsimp only
    by_cases hact : (!resource.isActive) = true
    · simp only [hact, if_true]
      exact hI
    · simp only [hact, Bool.false_eq_true, if_false]
      cases hgd : env.backendGetDetails p.agreementId with
      | none => exact hI
      | some rd =>
        dsimp only
        by_cases hst : (rd.status == DeploymentStatus.Running) = true
        · simp only [hst, if_true]
          obtain ⟨pt, r0, hpt, hr0, hid0, hpt0, _hown, hact0, _, _⟩ :=
            getResource_some_spec s p.agreementId p.ownerAddress p.ptAddress
              resource hres
          have hr0active : r0.isActive = true := by
            cases hb : r0.isActive with
            | true => rfl
            | false => rw [← hact0] at hb; simp [hb] at hact
          unfold DB.updateResource
          rw [hpt]
          dsimp only
          intro r hr hra
          rcases List.mem_map.mp hr with ⟨r1, hr1, hmap⟩
          by_cases hc : (r1.id == p.agreementId && r1.ptAddressId == pt.id) = true
          · rw [if_pos hc] at hmap
            simp only [Bool.and_eq_true, beq_iff_eq] at hc
            have hr1r0 : r1 = r0 :=
              hU r1 hr1 r0 hr0 (by rw [hc.1, hid0]) (by rw [hc.2, hpt0])
            rw [← hmap] at hra
            simp only at hra
            rw [hr1r0, hr0active] at hra
            exact absurd hra (by simp)
          · rw [if_neg hc] at hmap
            subst hmap
            exact hI r1 hr1 hra
        · simp only [hst, Bool.false_eq_true, if_false]
          exact hI

/-- C7: the three store-mutating operations of the daemon — resource
creation via the creation handler, the watcher's status update, and
resource closure via the close handler — each preserve the invariant that
every inactive resource row has empty details and status `Closed` (row
keys being unique, as the primary key guarantees). -/
theorem claim7_closed_resource_invariant_preserved (s : Store)
    (hU : KeyUnique s) (hI : ClosedWiped s) :
    (∀ env prov params,
      ClosedWiped (Program.processAgreementCreationEvent env prov params s).store) ∧
    (∀ env p, ClosedWiped (Program.watchResourceStatusStep env p s)) ∧
    (∀ env prov aid,
      ClosedWiped (Program.processAgreementCloseEvent env prov aid s).store) :=
  ⟨fun env prov params => closedWiped_processCreation env prov params s hI,
    fun env p => closedWiped_watchStep env p s hU hI,
    fun env prov aid => closedWiped_processClose env prov aid s hI⟩

/-- C7 witness: the watcher's update of the `Deploying` row of the
concrete fixture store keeps the invariant. -/
theorem claim7_witness :
    ClosedWiped (Program.watchResourceStatusStep c7Env ⟨1, "0xA", "0xPT"⟩ c7Store) :=
  (claim7_closed_resource_invariant_preserved c7Store
    (by unfold KeyUnique; decide) (by unfold ClosedWiped; decide)).2.1
    c7Env ⟨1, "0xA", "0xPT"⟩

/-- C5 counterexample: after a successful `POST /virtual-providers` for
`0xV` the providers row, the detail blob and the on-disk file all exist,
and the route `GET /x` registered before the request still dispatches for
the gateway's id — but dispatching it with the new virtual provider's id
42 yields NOT_FOUND, because registration updates neither the in-memory
roster nor the provider-route table. -/
theorem claim5_counterexample :
    registerOkWorld (AbstractProvider.routeHandlerRegisterVirtualProvider c5Registry
      c5Gw "0xV" "details-v" c5World) = some c5WorldAfter ∧
    (ProviderRow.mk 42 "0xv" true (some 1)) ∈ c5WorldAfter.store.providers ∧
    (DetailFileRow.mk "cid-v" "details-v") ∈ c5WorldAfter.store.detailFiles ∧
    ("vprov.0xv.details.cid-v.json", "details-v") ∈ c5WorldAfter.disk ∧
    dispatchProviderRequest c5World.providerRoutes PipeMethod.GET "/x" (some 1) =
      ProviderDispatch.handled 99 ∧
    dispatchProviderRequest c5WorldAfter.providerRoutes PipeMethod.GET "/x" (some 42) =
      ProviderDispatch.notFound := by
  refine ⟨by decide, by decide, by decide, by decide, by decide, by decide⟩

/-- `saveProvider` leaves the written row in the table. -/
theorem saveProvider_mem (s : Store) (id : Nat) (owner : String) (iv : Bool)
    (g : Option Nat) :
    (ProviderRow.mk id (lower owner) iv g) ∈ (DB.saveProvider s id owner iv g).providers := by
  unfold DB.saveProvider
  by_cases h : s.providers.any (fun p => p.id == id)
  · rw [if_pos h]
    obtain ⟨p, hp, hpid⟩ := List.any_eq_true.mp h
    exact List.mem_map.mpr ⟨p, hp, by rw [if_pos hpid]⟩
  · rw [if_neg h]
    exact List.mem_append_right _ (List.mem_singleton.mpr rfl)

/-- `saveProvider` does not touch the detail files. -/
theorem saveProvider_detailFiles (s : Store) (id : Nat) (owner : String) (iv : Bool)
    (g : Option Nat) : (DB.saveProvider s id owner iv g).detailFiles = s.detailFiles := by
  unfold DB.saveProvider
  split <;> rfl

/-- `insertDetailFile` leaves the `(cid, content)` row in the table. -/
theorem insertDetailFile_mem (cid : String → String) (s : Store) (content : String) :
    (DetailFileRow.mk (cid content) content) ∈
      (DB.insertDetailFile cid s content).1.detailFiles := by
  unfold DB.insertDetailFile
  by_cases h : s.detailFiles.any (fun df => df.cid == cid content)
  · rw [if_pos h]
    obtain ⟨df, hdf, hdfc⟩ := List.any_eq_true.mp h
    exact List.mem_map.mpr ⟨df, hdf, by rw [if_pos hdfc]⟩
  · rw [if_neg h]
    exact List.mem_append_right _ (List.mem_singleton.mpr rfl)

/-- C5 amended: a successful `POST /virtual-providers` yields the
providers row `(id, lower owner, isVirtual, gatewayProviderId = gw.id)`,
stores the submitted details file in `detail_files` and on disk — but it
leaves the provider-route table exactly as it was, so provider-scoped
routes registered before the request become addressable under the new
virtual provider's id only after the daemon restarts and reloads the
roster from the store. -/
theorem claim5_register_virtual_provider_effects (env : RegistryEnv) (gw : ChainActor)
    (requester detailsFile : String) (w w' : PipeWorld) (v : ChainActor)
    (hok : AbstractProvider.routeHandlerRegisterVirtualProvider env gw requester
      detailsFile w = RegisterResult.ok w')
    (hActor : env.getActor requester = some v) :
    (ProviderRow.mk v.id (lower v.ownerAddr) true (some gw.id)) ∈ w'.store.providers ∧
    (DetailFileRow.mk (env.cid detailsFile) detailsFile) ∈ w'.store.detailFiles ∧
    (AbstractProvider.vprovDetailsFileName v.ownerAddr (env.cid detailsFile), detailsFile)
      ∈ w'.disk ∧
    w'.providerRoutes = w.providerRoutes := by
  unfold AbstractProvider.routeHandlerRegisterVirtualProvider at hok
  cases hgp : DB.getProvider w.store requester with
  | some p => rw [hgp] at hok; exact absurd hok (by simp)
  | none =>
    rw [hgp] at hok
    dsimp only at hok
    by_cases h1 : (!env.parsesAsJSON detailsFile) = true
    · rw [if_pos h1] at hok; exact absurd hok (by simp)
    · rw [if_neg h1] at hok
      by_cases h2 : (!env.validDetails detailsFile) = true
      · rw [if_pos h2] at hok; exact absurd hok (by simp)
      · rw [if_neg h2] at hok
        rw [hActor] at hok
        dsimp only at hok
        by_cases h3 : (lower v.operatorAddr != lower gw.operatorAddr
            || v.endpoint != gw.endpoint) = true
        · rw [if_pos h3] at hok; exact absurd hok (by simp)
        · rw [if_neg h3] at hok
          by_cases h4 : (v.detailsLink != env.cid detailsFile) = true
          · rw [if_pos h4] at hok; exact absurd hok (by simp)
          · rw [if_neg h4] at hok
            simp only [RegisterResult.ok.injEq] at hok
            subst hok
            refine ⟨saveProvider_mem _ _ _ _ _, ?_, ?_, rfl⟩
            · rw [saveProvider_detailFiles]
              exact insertDetailFile_mem env.cid w.store detailsFile
            · exact List.mem_append_right _ (List.mem_singleton.mpr rfl)

/-- C5 witness: the amended statement applied to the concrete registration
fixture. -/
theorem claim5_witness :
    (ProviderRow.mk 42 (lower "0xV") true (some 1)) ∈ c5WorldAfter.store.providers ∧
    (DetailFileRow.mk (c5Registry.cid "details-v") "details-v") ∈
      c5WorldAfter.store.detailFiles ∧
    (AbstractProvider.vprovDetailsFileName "0xV" (c5Registry.cid "details-v"),
      "details-v") ∈ c5WorldAfter.disk ∧
    c5WorldAfter.providerRoutes = c5World.providerRoutes :=
  claim5_register_virtual_provider_effects c5Registry c5Gw "0xV" "details-v"
    c5World c5WorldAfter ⟨42, "0xV", "0xOP", "ep", "cid-v"⟩ (by decide) (by decide)

/-- A store with no resource row of the given `(id, ptAddressId)` key makes
`getResource` miss for every owner. -/
theorem getResource_none_of_no_key (s : Store) (pt : ProtocolRow) (id : Nat)
    (owner ptAddr : String) (hpt : DB.getProtocol s ptAddr = some pt)
    (h : ∀ r ∈ s.resources, r.id = id → r.ptAddressId ≠ pt.id) :
    DB.getResource s id owner ptAddr = none := by
  unfold DB.getResource
  rw [hpt]
  dsimp only
  rw [List.filterMap_eq_nil_iff.mpr ?_]
  · rfl
  · intro r hr
    by_cases h1 : r.id = id
    · simp [h r hr h1]
    · simp [h1]

/-- Properties of a successful `getAgreements({id, protocol, status})`
lookup. -/
theorem getAgreement_spec (env : Env) (id : Nat) (ptAddr : String)
    (st : AgreementStatus) (ag : IndexerAgreement)
    (h : Env.getAgreement env id ptAddr st = some ag) :
    ag ∈ env.agreements ∧ ag.id = id ∧ ag.status = st := by
  unfold Env.getAgreement at h
  obtain ⟨ys, hl⟩ := List.head?_eq_some_iff.mp h
  have hmem : ag ∈ List.filter (fun a =>
      a.id == id && lower a.protocolAddress == lower ptAddr && a.status == st)
      env.agreements := by
    rw [hl]; exact List.mem_cons_self _ _
  have hc := List.mem_filter.mp hmem
  have hp := hc.2
  simp only [Bool.and_eq_true, beq_iff_eq] at hp
  exact ⟨hc.1, hp.1.1, hp.2⟩

/-- A resolved `providerActor` is the provider itself or comes from its
virtual-provider roster. -/
theorem resolveActor_some (prov : ProviderRT) (addr : String) (actor : Actor)
    (h : Program.resolveActor prov addr = some actor) :
    actor = prov.actor ∨ ∃ v ∈ prov.virtualProviders, v.actor = actor := by
  unfold Program.resolveActor at h
  by_cases hc : (lower addr == lower prov.actor.ownerAddr) = true
  · rw [if_pos hc] at h
    exact Or.inl (Option.some.inj h).symm
  · rw [if_neg hc] at h
    rcases Option.map_eq_some'.mp h with ⟨v, hv, hva⟩
    unfold findByAddress at hv
    exact Or.inr ⟨v, List.mem_of_find?_eq_some hv, hva⟩

/-- `createResource` changes no table other than `resources`, so protocol
lookups are unaffected. -/
theorem getProtocol_createResource (s : Store) (row : ResourceRow) (a : String) :
    DB.getProtocol (DB.createResource s row) a = DB.getProtocol s a := rfl

/-- After inserting a row for a key that had no row, `getResource` finds
it again for any owner matching the row case-insensitively, provided the
row's provider exists (the inner join of `resourceQuery`). -/
theorem getResource_createResource_self (s : Store) (pt : ProtocolRow)
    (ptAddr : String) (hpt : DB.getProtocol s ptAddr = some pt)
    (row : ResourceRow) (owner : String)
    (hNoRow : ∀ r ∈ s.resources, r.id = row.id → r.ptAddressId ≠ pt.id)
    (hid : row.ptAddressId = pt.id)
    (hown : lower row.ownerAddress = lower owner)
    (hprov : ∃ pr ∈ s.providers, pr.id = row.providerId) :
    ∃ view, DB.getResource (DB.createResource s row) row.id owner ptAddr =
      some view := by
  obtain ⟨pr, hpr, hprid⟩ := hprov
  have hfind : (s.providers.find? (fun q => q.id == row.providerId)).isSome := by
    rw [List.find?_isSome]
    exact ⟨pr, hpr, by simp [hprid]⟩
  obtain ⟨q, hq⟩ := Option.isSome_iff_exists.mp hfind
  unfold DB.getResource
  rw [getProtocol_createResource, hpt]
  dsimp only
  have hrows : (DB.createResource s row).resources = s.resources ++ [row] := rfl
  rw [hrows, List.filterMap_append]
  have hold : List.filterMap (fun r =>
      if (r.id == row.id && lower r.ownerAddress == lower owner
          && r.ptAddressId == pt.id) = true then
        DB.viewOf (DB.createResource s row) r pt.address
      else none) s.resources = [] := by
    rw [List.filterMap_eq_nil_iff]
    intro r hr
    by_cases h1 : r.id = row.id
    · simp [hNoRow r hr h1]
    · simp [h1]
  rw [hold, List.nil_append]
  have hviewOf : ∃ view, DB.viewOf (DB.createResource s row) row pt.address =
      some view := by
    unfold DB.viewOf
    have hpq : (DB.createResource s row).providers = s.providers := rfl
    rw [hpq, hq]
    exact ⟨_, rfl⟩
  obtain ⟨view, hview⟩ := hviewOf
  refine ⟨view, ?_⟩
  have hcond : (row.id == row.id && lower row.ownerAddress == lower owner
      && row.ptAddressId == pt.id) = true := by
    simp [hown, hid]
  rw [List.filterMap_cons]
  rw [if_pos hcond, hview]
  rfl

/-- After the creation handler has inserted a row for the event's key, a
second delivery of the same event is a complete no-op (the idempotency
check finds the row), and exactly one row for the key exists. -/
theorem createResource_then_skip (env : Env) (prov : ProviderRT)
    (p : Program.CreationEventParams) (s : Store) (pt : ProtocolRow)
    (hpt : DB.getProtocol s prov.protocolAddress = some pt)
    (hNoRow : ∀ r ∈ s.resources, r.id = p.agreementId → r.ptAddressId ≠ pt.id)
    (row : ResourceRow)
    (hrowid : row.id = p.agreementId) (hrowpt : row.ptAddressId = pt.id)
    (hrowown : lower row.ownerAddress = lower p.userAddress)
    (hrowprov : ∃ pr ∈ s.providers, pr.id = row.providerId) :
    ((DB.createResource s row).resources.filter
      (fun r => r.id == p.agreementId && r.ptAddressId == pt.id)).length = 1 ∧
    Program.processAgreementCreationEvent env prov p (DB.createResource s row) =
      ⟨DB.createResource s row, [], false⟩ := by
  constructor
  · have hrows : (DB.createResource s row).resources = s.resources ++ [row] := rfl
    rw [hrows, List.filter_append]
    have hold : s.resources.filter
        (fun r => r.id == p.agreementId && r.ptAddressId == pt.id) = [] := by
      rw [List.filter_eq_nil_iff]
      intro r hr
      by_cases h1 : r.id = p.agreementId
      · simp [hNoRow r hr h1]
      · simp [h1]
    have hone : [row].filter
        (fun r => r.id == p.agreementId && r.ptAddressId == pt.id) = [row] := by
      simp [hrowid, hrowpt]
    rw [hold, hone, List.nil_append]
    rfl
  · obtain ⟨view, hview⟩ := getResource_createResource_self s pt
      prov.protocolAddress hpt row p.userAddress
      (fun r hr h1 => hNoRow r hr (by rw [← hrowid]; exact h1)) hrowpt hrowown hrowprov
    rw [hrowid] at hview
    unfold Program.processAgreementCreationEvent
    rw [hview]

/-- C6: delivering the same `AgreementCreated` event twice — whether the
first delivery provisioned the resource or recorded a `Failed` row —
leaves exactly one resource row for the `(agreementId, protocol)` key and
calls `ServiceBackend.create` exactly once: the first delivery makes the
single `create` call and the second delivery is a complete no-op. -/
theorem claim6_create_replay_idempotent (env : Env) (prov : ProviderRT)
    (p : Program.CreationEventParams) (s : Store) (pt : ProtocolRow)
    (hpt : DB.getProtocol s prov.protocolAddress = some pt)
    (hNoRow : ∀ r ∈ s.resources, r.id = p.agreementId → r.ptAddressId ≠ pt.id)
    (hUser : ∀ a ∈ env.agreements, a.id = p.agreementId →
      lower a.userAddress = lower p.userAddress)
    (hProvSelf : ∃ pr ∈ s.providers, pr.id = prov.actor.id)
    (hProvVirt : ∀ v ∈ prov.virtualProviders, ∃ pr ∈ s.providers, pr.id = v.actor.id)
    (hCalls : (Program.processAgreementCreationEvent env prov p s).calls ≠ []) :
    (Program.processAgreementCreationEvent env prov p s).calls =
      [BackendCall.create p.agreementId] ∧
    ((Program.processAgreementCreationEvent env prov p s).store.resources.filter
      (fun r => r.id == p.agreementId && r.ptAddressId == pt.id)).length = 1 ∧
    Program.processAgreementCreationEvent env prov p
        (Program.processAgreementCreationEvent env prov p s).store =
      ⟨(Program.processAgreementCreationEvent env prov p s).store, [], false⟩ := by
  have hres0 : DB.getResource s p.agreementId p.userAddress prov.protocolAddress = none :=
    getResource_none_of_no_key s pt p.agreementId p.userAddress prov.protocolAddress
      hpt hNoRow
  cases hag : env.getAgreement p.agreementId prov.protocolAddress
      AgreementStatus.Active with
  | none =>
    rw [processCreation_skip env prov p s hag] at hCalls
    exact absurd rfl hCalls
  | some ag =>
    obtain ⟨hagmem, hagid, _⟩ := getAgreement_spec env p.agreementId
      prov.protocolAddress AgreementStatus.Active ag hag
    cases hoff : env.getOffer ag.offerId with
    | none =>
      have hR : Program.processAgreementCreationEvent env prov p s = ⟨s, [], true⟩ := by
        unfold Program.processAgreementCreationEvent
        simp only [hres0, hag, hoff]
      rw [hR] at hCalls
      exact absurd rfl hCalls
    | some offer =>
      cases hA : Program.resolveActor prov ag.providerAddress with
      | none =>
        have hR : Program.processAgreementCreationEvent env prov p s = ⟨s, [], true⟩ := by
          unfold Program.processAgreementCreationEvent
          simp only [hres0, hag, hoff, hA]
        rw [hR] at hCalls
        exact absurd rfl hCalls
      | some actor =>
        have hR : Program.processAgreementCreationEvent env prov p s =
            Program.createResource env ag offer prov.protocolAddress actor s := by
          unfold Program.processAgreementCreationEvent
          simp only [hres0, hag, hoff, hA]
        have hActorRow : ∃ pr ∈ s.providers, pr.id = actor.id := by
          rcases resolveActor_some prov ag.providerAddress actor hA with h | ⟨v, hv, hva⟩
          · rw [h]; exact hProvSelf
          · rw [← hva]; exact hProvVirt v hv
        have hown : lower ag.userAddress = lower p.userAddress :=
          hUser ag hagmem hagid
        cases hbc : env.backendCreate ag.id with
        | some d =>
          have hC : Program.createResource env ag offer prov.protocolAddress actor s =
              ⟨DB.createResource s
                ⟨ag.id, jsOrElse d.name env.randomName, ag.userAddress, d.rest,
                  d.status, "default", offer.id, true, actor.id, pt.id⟩,
                [BackendCall.create ag.id], false⟩ := by
            unfold Program.createResource
            simp only [hbc, hpt]
          have haux := createResource_then_skip env prov p s pt hpt hNoRow
            ⟨ag.id, jsOrElse d.name env.randomName, ag.userAddress, d.rest,
              d.status, "default", offer.id, true, actor.id, pt.id⟩
            hagid rfl hown hActorRow
          rw [hR, hC]
          exact ⟨by rw [hagid], haux.1, haux.2⟩
        | none =>
          have hC : Program.createResource env ag offer prov.protocolAddress actor s =
              ⟨DB.createResource s
                ⟨ag.id, "", ag.userAddress, [], DeploymentStatus.Failed, "default",
                  ag.offerId, true, actor.id, pt.id⟩,
                [BackendCall.create ag.id], false⟩ := by
            unfold Program.createResource
            simp only [hbc, hpt]
          have haux := createResource_then_skip env prov p s pt hpt hNoRow
            ⟨ag.id, "", ag.userAddress, [], DeploymentStatus.Failed, "default",
              ag.offerId, true, actor.id, pt.id⟩
            hagid rfl hown hActorRow
          rw [hR, hC]
          exact ⟨by rw [hagid], haux.1, haux.2⟩

/-- C6 witness: the replay statement applied to the concrete fixture (the
first delivery provisions a `Deploying` resource; the second is skipped). -/
theorem claim6_witness :
    (Program.processAgreementCreationEvent replayEnv soloProv ⟨7, 3, "0xu"⟩
      soloStore).calls = [BackendCall.create 7] ∧
    ((Program.processAgreementCreationEvent replayEnv soloProv ⟨7, 3, "0xu"⟩
      soloStore).store.resources.filter
        (fun r => r.id == 7 && r.ptAddressId == 1)).length = 1 ∧
    Program.processAgreementCreationEvent replayEnv soloProv ⟨7, 3, "0xu"⟩
        (Program.processAgreementCreationEvent replayEnv soloProv ⟨7, 3, "0xu"⟩
          soloStore).store =
      ⟨(Program.processAgreementCreationEvent replayEnv soloProv ⟨7, 3, "0xu"⟩
        soloStore).store, [], false⟩ :=
  claim6_create_replay_idempotent replayEnv soloProv ⟨7, 3, "0xu"⟩ soloStore
    ⟨1, "0xpt"⟩ (by decide) (by decide) (by decide) (by decide) (by decide)
    (by decide)
